import Mathlib

/-!
Shallow embedding of the frame-capture / GIF-assembly pipeline of the
`city-gifs` repository.

The embedded code:
* `useFrameCapture` (the orchestrator variant with per-frame selection,
  inline frame state): `startCapture` / `stopCapture` / `clearFrames` /
  `addFrame` / `createGIF` / `toggleFrameSelection`.
* `useGIFCreator.createGIF` (the variant built on `useFrameManager`):
  empty-input check, `isCreatingGIF` / `gifBlob` handling, engine
  auto-load, delegation to the FFmpeg adapter.
* `useFFmpeg` (`loadFFmpeg`, `createGIF`): engine lifecycle, working-file
  writes under `frame_%04d.jpg` names, exec / read-back, cleanup loop,
  progress resets.
* `useFrameManager`: `addFrame` (gate on `isCapturing`, append, auto-stop
  at `maxFrames`, trim via `slice(-maxFrames)`), `toggleFrameSelection`,
  `startCapture`, `stopCapture`, `clearFrames`.
* `useCameraPolling`: the react-query `retry` predicate and `retryDelay`.

Blobs (image byte buffers) are modelled as opaque `Nat` identifiers;
`Date.now()` is modelled as a monotone counter `now` carried in the state
and bumped on every `addFrame` call; `URL.createObjectURL` yields an
opaque handle derived from that counter.  The FFmpeg engine is an
external collaborator, so its success/failure behaviour is an oracle
(`Engine`): each `writeFile`, the `exec`, the `readFile` and each
`deleteFile` may independently succeed or fail.  The adapter's working
filesystem is the list of file names currently present (writes insert,
deletes erase).  Every run also returns a `Trace` of the `writeFile` /
`deleteFile` calls made and the values stored into the `progress` state,
so that "what was handed to the encoder" and "was cleanup attempted" are
observable.
-/

namespace CityGifs

/-- One captured frame (`CapturedFrame` in `useFrameCapture`,
`BaseFrame`/`ExtendedFrame` in `useFrameManager`).  `url` and `selected`
are `Option`s because the corresponding TS fields may be absent
(`selected?: boolean`; `url` is only created when `createBlobUrl`). -/
structure Frame where
  blob : Nat
  timestamp : Nat
  url : Option Nat
  selected : Option Bool
deriving DecidableEq

/-- Error taxonomy of the pipeline: the distinct `throw new Error(...)`
sites of `useFrameCapture.createGIF`, `useGIFCreator.createGIF`,
`useFFmpeg.loadFFmpeg` and `useFFmpeg.createGIF`, plus the three phases
of the engine run that can reject. -/
inductive GifError where
  | insufficientFrames  -- 'Need at least 2 selected frames to create a GIF'
  | noFrames            -- 'No frames provided' / 'No images provided'
  | engineInit          -- ffmpeg.load() rejected
  | ffmpegNull          -- 'FFmpeg failed to initialize'
  | writeFail           -- engine threw in a writeFile call
  | execFail            -- engine threw in exec
  | readFail            -- engine threw in readFile
deriving DecidableEq

/-- Oracle describing the external FFmpeg engine's behaviour: which of
its operations succeed.  `gifData` is the opaque byte buffer `readFile`
returns on success. -/
structure Engine where
  loadOk : Bool
  writeOk : Nat → Bool
  execOk : Bool
  readOk : Bool
  deleteOk : String → Bool
  gifData : Nat

/-- Observable trace of one adapter run: the `writeFile` calls (name,
bytes) in order, the `deleteFile` calls attempted in order, and the
values assigned to the `progress` state in order. -/
structure Trace where
  writes : List (String × Nat)
  deletes : List String
  progressSets : List Nat
deriving DecidableEq

def Trace.empty : Trace := ⟨[], [], []⟩

/-- State of `useFFmpeg`: `ffmpegRef.current` (an opaque instance id,
`none` = null), a counter for allocating fresh instance ids, the
`isLoaded` / `isLoading` / `progress` React states, and the engine's
working filesystem (names of files currently present). -/
structure FFState where
  engineRef : Option Nat
  nextId : Nat
  isLoaded : Bool
  isLoading : Bool
  progress : Nat
  files : List String
deriving DecidableEq

/-- `useFFmpeg.loadFFmpeg`: returns immediately when `isLoaded || isLoading`;
otherwise allocates a fresh engine instance into `ffmpegRef`, runs
`ffmpeg.load()` (success given by the oracle's `loadOk`), sets `isLoaded`
on success, rethrows on failure, and in both cases runs the `finally`
block (`isLoading := false`, `progress := 0`). -/
def loadFFmpeg (loadOk : Bool) (s : FFState) : Except GifError Unit × FFState :=
  if s.isLoaded || s.isLoading then (.ok (), s)
  else
    let s1 : FFState :=
      { s with isLoading := true, progress := 0,
               engineRef := some s.nextId, nextId := s.nextId + 1 }
    if loadOk then
      (.ok (), { s1 with isLoaded := true, isLoading := false, progress := 0 })
    else
      (.error .engineInit, { s1 with isLoading := false, progress := 0 })

/-- `` `frame_${i.toString().padStart(4, '0')}.jpg` ``  (JS `padStart`
pads with `'0'` up to length 4 and leaves longer strings unchanged). -/
def frameName (i : Nat) : String :=
  let d := toString i
  "frame_" ++ String.mk (List.replicate (4 - d.length) '0') ++ d ++ ".jpg"

/-- `ffmpeg.writeFile` filesystem effect: creates the file if absent
(overwrites, rather than duplicates, an existing name). -/
def jsInsert (files : List String) (n : String) : List String :=
  if n ∈ files then files else files ++ [n]

/-- The write-frames loop of `useFFmpeg.createGIF`: writes
`images[i]` to `frameName i` for `i = 0, 1, ...`, stopping at the first
`writeFile` the engine rejects.  Returns (all-writes-succeeded, resulting
filesystem, the `writeFile` calls performed). -/
def writeFrames (eng : Engine) : List Nat → Nat → List String →
    Bool × List String × List (String × Nat)
  | [], _, files => (true, files, [])
  | b :: rest, i, files =>
    if eng.writeOk i then
      let r := writeFrames eng rest (i + 1) (jsInsert files (frameName i))
      (r.1, r.2.1, (frameName i, b) :: r.2.2)
    else (false, files, [])

/-- The cleanup loop of `useFFmpeg.createGIF`: attempts `deleteFile` for
each name in order; a failed delete is logged and skipped (the file
stays), a successful one erases the file. -/
def deleteFrames (eng : Engine) (names : List String) (files : List String) :
    List String :=
  names.foldl (fun fs n => if eng.deleteOk n then fs.erase n else fs) files

instance {ε α : Type} [DecidableEq ε] [DecidableEq α] :
    DecidableEq (Except ε α) := fun a b =>
  match a, b with
  | .ok a, .ok b =>
    if h : a = b then .isTrue (by rw [h]) else .isFalse (by simp [h])
  | .error a, .error b =>
    if h : a = b then .isTrue (by rw [h]) else .isFalse (by simp [h])
  | .ok _, .error _ => .isFalse (by simp)
  | .error _, .ok _ => .isFalse (by simp)

/-- Result of one `useFFmpeg.createGIF` run. -/
structure FFRun where
  result : Except GifError Nat
  state : FFState
  trace : Trace
deriving DecidableEq

/-- `useFFmpeg.createGIF`: auto-loads the engine when
`!ffmpegRef.current || !isLoaded`, rejects on empty input or null
engine, sets `progress := 0`, writes the frames, execs (one engine
progress callback at completion is modelled as the single value `100`),
reads back `output.gif`, runs the best-effort cleanup loop, and in the
`finally` block resets `progress := 0` on every path through the `try`. -/
def ffCreateGIF (eng : Engine) (images : List Nat) (s : FFState) : FFRun :=
  let load := if s.engineRef.isNone || !s.isLoaded
              then loadFFmpeg eng.loadOk s else (.ok (), s)
  match load with
  | (.error e, s0) => ⟨.error e, s0, Trace.empty⟩
  | (.ok _, s0) =>
    if images.isEmpty then ⟨.error .noFrames, s0, Trace.empty⟩
    else if s0.engineRef.isNone then ⟨.error .ffmpegNull, s0, Trace.empty⟩
    else
      let w := writeFrames eng images 0 s0.files
      if !w.1 then
        ⟨.error .writeFail, { s0 with files := w.2.1, progress := 0 },
         ⟨w.2.2, [], [0, 0]⟩⟩
      else if !eng.execOk then
        ⟨.error .execFail, { s0 with files := w.2.1, progress := 0 },
         ⟨w.2.2, [], [0, 0]⟩⟩
      else if !eng.readOk then
        ⟨.error .readFail,
         { s0 with files := jsInsert w.2.1 "output.gif", progress := 0 },
         ⟨w.2.2, [], [0, 100, 0]⟩⟩
      else
        let names := (List.range images.length).map frameName
        ⟨.ok eng.gifData,
         { s0 with
             files := deleteFrames eng (names ++ ["output.gif"])
                        (jsInsert w.2.1 "output.gif"),
             progress := 0 },
         ⟨w.2.2, names ++ ["output.gif"], [0, 100, 0]⟩⟩

/-- State of `useGIFCreator` (the variant delegating to `useFrameManager`
with `createBlobUrl: false`): its internal frame manager's blobs (unused
when the caller passes `inputBlobs` explicitly), the `isCreatingGIF` and
`gifBlob` React states, and the `useFFmpeg` state it owns. -/
structure GCState where
  gcFrames : List Nat
  isCreatingGIF : Bool
  gifBlob : Option Nat
  ff : FFState
deriving DecidableEq

/-- Result of one `useGIFCreator.createGIF` run. -/
structure GCRun where
  result : Except GifError Unit
  state : GCState
  trace : Trace
deriving DecidableEq

/-- `useGIFCreator.createGIF(inputBlobs?)`: uses `inputBlobs` when given
(`inputBlobs || frames.map(...)`; a present-but-empty array is truthy in
JS, so only an absent argument falls back to the internal frames), throws
'No frames provided' on an empty list, sets `isCreatingGIF := true` and
`gifBlob := null`, awaits `loadFFmpeg()` when `!isLoaded`, runs the
adapter's `createGIF`, stores the result into `gifBlob` on success,
rethrows on failure, and clears `isCreatingGIF` in the `finally` block. -/
def gcCreateGIF (eng : Engine) (inputBlobs : Option (List Nat)) (g : GCState) :
    GCRun :=
  let blobsToUse := inputBlobs.getD g.gcFrames
  if blobsToUse.isEmpty then ⟨.error .noFrames, g, Trace.empty⟩
  else
    let g1 := { g with isCreatingGIF := true, gifBlob := none }
    let load := if !g1.ff.isLoaded then loadFFmpeg eng.loadOk g1.ff
                else (.ok (), g1.ff)
    match load with
    | (.error e, ff0) =>
      ⟨.error e, { g1 with ff := ff0, isCreatingGIF := false }, Trace.empty⟩
    | (.ok _, ff0) =>
      let fr := ffCreateGIF eng blobsToUse ff0
      match fr.result with
      | .error e =>
        ⟨.error e, { g1 with ff := fr.state, isCreatingGIF := false }, fr.trace⟩
      | .ok gif =>
        ⟨.ok (), { g1 with ff := fr.state, gifBlob := some gif,
                           isCreatingGIF := false }, fr.trace⟩

/-- State of the orchestrator `useFrameCapture` (selection-aware variant
with inline frame state): its frame store, the capturing flag, the
`Date.now()` clock, and the `useGIFCreator` state it owns. -/
structure OrchState where
  frames : List Frame
  isCapturing : Bool
  now : Nat
  gc : GCState
deriving DecidableEq

/-- Result of one orchestrator `createGIF` run. -/
structure OrchRun where
  result : Except GifError Unit
  state : OrchState
  trace : Trace
deriving DecidableEq

/-- `frames.filter(frame => frame.selected !== false)`: default-selected
frames (including frames with no `selected` field) qualify unless
explicitly deselected. -/
def selectedFrames (frames : List Frame) : List Frame :=
  frames.filter (fun f => f.selected != some false)

/-- `useFrameCapture.createGIF`: filters the store for
`selected !== false`, throws 'Need at least 2 selected frames to create a
GIF' when fewer than 2 qualify, otherwise maps the qualifying frames to
their blobs and awaits `useGIFCreator.createGIF` on them. -/
def orchCreateGIF (eng : Engine) (s : OrchState) : OrchRun :=
  let sel := selectedFrames s.frames
  if sel.length < 2 then ⟨.error .insufficientFrames, s, Trace.empty⟩
  else
    let r := gcCreateGIF eng (some (sel.map Frame.blob)) s.gc
    ⟨r.result, { s with gc := r.state }, r.trace⟩

/-! ### `useFrameManager` -/

/-- The hook options of `useFrameManager`. -/
structure MgrCfg where
  maxFrames : Nat
  createBlobUrl : Bool
  defaultSelected : Bool

/-- State of one `useFrameManager` instance plus the `Date.now()` clock
(monotone counter, bumped once per `addFrame` call). -/
structure MgrState where
  frames : List Frame
  isCapturing : Bool
  now : Nat
deriving DecidableEq

/-- The frame object `useFrameManager.addFrame` constructs at time `t`:
always `blob` and `timestamp`; `url` (a fresh object URL, modelled by the
clock value) and `selected := defaultSelected` only when
`createBlobUrl`. -/
def mkFrame (cfg : MgrCfg) (blob t : Nat) : Frame :=
  { blob := blob, timestamp := t,
    url := if cfg.createBlobUrl then some t else none,
    selected := if cfg.createBlobUrl then some cfg.defaultSelected else none }

/-- JS `a.slice(-n)`: the last `n` elements — except that `slice(-0)` is
`slice(0)`, the whole array. -/
def jsSliceLast (n : Nat) (a : List Frame) : List Frame :=
  if n = 0 then a else a.drop (a.length - n)

/-- `useFrameManager.addFrame`: constructs the frame; when not capturing
returns it without appending; when capturing appends it, flips
`isCapturing` to false once the new length reaches `maxFrames`, and trims
to the last `maxFrames` entries when over the limit. -/
def mgrAddFrame (cfg : MgrCfg) (blob : Nat) (s : MgrState) : Frame × MgrState :=
  let f := mkFrame cfg blob s.now
  if !s.isCapturing then (f, { s with now := s.now + 1 })
  else
    let updated := s.frames ++ [f]
    (f, { frames := if updated.length > cfg.maxFrames
                    then jsSliceLast cfg.maxFrames updated else updated,
          isCapturing := if updated.length ≥ cfg.maxFrames then false
                         else s.isCapturing,
          now := s.now + 1 })

/-- `useFrameManager.toggleFrameSelection`: maps over the frames, negating
`selected` at the given index when that frame has a `selected` field
(`'selected' in frame`), leaving every other frame — and every frame's
position — unchanged. -/
def toggleAt : Nat → List Frame → List Frame
  | _, [] => []
  | 0, f :: rest =>
    (match f.selected with
     | some b => { f with selected := some (!b) }
     | none => f) :: rest
  | i + 1, f :: rest => f :: toggleAt i rest

/-- The Frame Store operations a caller can issue (`useFrameManager`). -/
inductive MgrOp where
  | addFrame (blob : Nat)
  | toggle (i : Nat)
  | stopCapture
  | clearFrames
  | startCapture

/-- One `useFrameManager` operation as a state transformer:
`startCapture` clears the frames and sets capturing, `stopCapture` only
clears the flag, `clearFrames` empties the store and clears the flag,
`toggleFrameSelection` flips one `selected` flag in place. -/
def mgrStep (cfg : MgrCfg) (op : MgrOp) (s : MgrState) : MgrState :=
  match op with
  | .addFrame b => (mgrAddFrame cfg b s).2
  | .toggle i => { s with frames := toggleAt i s.frames }
  | .stopCapture => { s with isCapturing := false }
  | .clearFrames => { s with frames := [], isCapturing := false }
  | .startCapture => { s with frames := [], isCapturing := true }

/-- A sequence of Frame Store operations, applied in order. -/
def mgrRun (cfg : MgrCfg) (ops : List MgrOp) (s : MgrState) : MgrState :=
  ops.foldl (fun s op => mgrStep cfg op s) s

/-- The initial `useFrameManager` state: no frames, not capturing. -/
def mgrInit : MgrState := ⟨[], false, 0⟩

/-- A run consisting only of `addFrame` calls. -/
def mgrAddFrames (cfg : MgrCfg) (bs : List Nat) (s : MgrState) : MgrState :=
  bs.foldl (fun s b => (mgrAddFrame cfg b s).2) s

/-! ### `useCameraPolling` -/

/-- JS `String.prototype.includes`: `sub` occurs as a contiguous
substring of `s`, i.e. it is a prefix of some suffix. -/
def jsIncludes (s sub : String) : Bool :=
  s.toList.tails.any fun t => sub.toList.isPrefixOf t

/-- The react-query `retry` predicate of `useCameraPolling`: never retry
an error whose message includes 'not an image'; otherwise retry while
fewer than 2 failures have occurred. -/
def cameraRetry (failureCount : Nat) (errorMessage : String) : Bool :=
  if jsIncludes errorMessage "not an image" then false
  else decide (failureCount < 2)

/-- The react-query `retryDelay` of `useCameraPolling` (milliseconds). -/
def cameraRetryDelay : Nat := 2000

/-- The wrapped message `useCameraPolling`'s queryFn throws when the
fetched payload fails the `blob.type.startsWith('image/')` validation. -/
def contentValidationMessage : String :=
  "Camera feed unavailable: Response is not an image"

/-! ### Concrete fixtures used by witnesses and counterexamples -/

/-- An engine whose every operation succeeds. -/
def engAll : Engine := ⟨true, fun _ => true, true, true, fun _ => true, 99⟩

/-- An engine that throws during `exec` (everything else succeeds). -/
def engExecFail : Engine := ⟨true, fun _ => true, false, true, fun _ => true, 99⟩

/-- An adapter state with the engine loaded and an empty working space. -/
def ffLoaded : FFState := ⟨some 0, 1, true, false, 0, []⟩

/-- A 4-frame store with selection pattern `[true, false, true, true]`
on blobs `10, 11, 12, 13`, inside an orchestrator whose engine is
loaded. -/
def orchSel4 : OrchState :=
  ⟨[⟨10, 0, some 0, some true⟩, ⟨11, 1, some 1, some false⟩,
    ⟨12, 2, some 2, some true⟩, ⟨13, 3, some 3, some true⟩],
   false, 4, ⟨[], false, none, ffLoaded⟩⟩

/-- A GIF-creator state holding a previously produced result (blob `7`). -/
def gcPrev : GCState := ⟨[], false, some 7, ffLoaded⟩

/-! ### Claim theorems -/

/-- C1: whenever fewer than 2 frames of the store have `selected !== false`,
the orchestrator's `createGIF()` fails with the insufficient-frames error,
the encoder is never invoked (the run's trace is empty — no `writeFile`,
no `deleteFile`, no progress assignment), and the whole state — frames,
their selection flags, the capturing flag, and the GIF-creator/adapter
substates — is left unchanged. -/
theorem createGIF_insufficient_frames_rejects_untouched
    (eng : Engine) (s : OrchState)
    (h : (selectedFrames s.frames).length < 2) :
    orchCreateGIF eng s = ⟨.error .insufficientFrames, s, Trace.empty⟩ := by
  unfold orchCreateGIF
  simp [h]

theorem createGIF_insufficient_frames_rejects_untouched_witness :
    (selectedFrames [⟨10, 0, some 0, some true⟩, ⟨11, 1, some 1, some false⟩]).length < 2
    ∧ orchCreateGIF engAll
        ⟨[⟨10, 0, some 0, some true⟩, ⟨11, 1, some 1, some false⟩], true, 2, gcPrev⟩
      = ⟨.error .insufficientFrames,
         ⟨[⟨10, 0, some 0, some true⟩, ⟨11, 1, some 1, some false⟩], true, 2, gcPrev⟩,
         Trace.empty⟩ :=
  ⟨by decide,
   createGIF_insufficient_frames_rejects_untouched engAll
     ⟨[⟨10, 0, some 0, some true⟩, ⟨11, 1, some 1, some false⟩], true, 2, gcPrev⟩
     (by decide)⟩

/-- C7 (counterexample): `loadFFmpeg` called while an initialization is in
flight (`isLoading = true`, `isLoaded = false`) resolves successfully at
once — with the engine still not loaded — instead of awaiting the
in-flight initialization.  This refutes the claim's "a call made while
one is in flight awaits that same in-flight initialization (it does not
resolve before the engine is loaded)". -/
theorem loadFFmpeg_inflight_resolves_early :
    (loadFFmpeg true ⟨some 0, 1, false, true, 0, []⟩).1 = .ok ()
    ∧ (loadFFmpeg true ⟨some 0, 1, false, true, 0, []⟩).2.isLoaded = false :=
  ⟨rfl, rfl⟩

/-- C7 (amended): `loadFFmpeg` called after initialization has succeeded,
or while one is already in flight, is a complete no-op: it does not start
a second engine load, does not replace (or allocate) an engine instance,
changes no state, and resolves successfully — but a call during an
in-flight initialization returns immediately rather than awaiting it, so
it may resolve while the engine is still not loaded. -/
theorem loadFFmpeg_idempotent_noop
    (ok : Bool) (s : FFState) (h : (s.isLoaded || s.isLoading) = true) :
    loadFFmpeg ok s = (.ok (), s) := by
  unfold loadFFmpeg
  simp [h]

theorem loadFFmpeg_idempotent_noop_witness :
    (ffLoaded.isLoaded || ffLoaded.isLoading) = true
    ∧ loadFFmpeg true ffLoaded = (.ok (), ffLoaded) :=
  ⟨by decide, loadFFmpeg_idempotent_noop true ffLoaded (by decide)⟩

/-- C8: `useFrameManager.addFrame` called while not capturing still
constructs and returns a frame — carrying the blob, the current
timestamp, and (exactly when `createBlobUrl` is configured) a blob URL
and the configured default selection flag — but appends nothing: the
stored frame sequence and the capturing flag are unchanged (only the
clock advances). -/
theorem addFrame_not_capturing_returns_without_buffering
    (cfg : MgrCfg) (b : Nat) (s : MgrState) (h : s.isCapturing = false) :
    (mgrAddFrame cfg b s).2 = { s with now := s.now + 1 }
    ∧ (mgrAddFrame cfg b s).1.blob = b
    ∧ (mgrAddFrame cfg b s).1.timestamp = s.now
    ∧ (mgrAddFrame cfg b s).1.url
        = (if cfg.createBlobUrl then some s.now else none)
    ∧ (mgrAddFrame cfg b s).1.selected
        = (if cfg.createBlobUrl then some cfg.defaultSelected else none) := by
  unfold mgrAddFrame mkFrame
  simp [h]

theorem addFrame_not_capturing_returns_without_buffering_witness :
    (⟨[], false, 5⟩ : MgrState).isCapturing = false
    ∧ ((mgrAddFrame ⟨3, true, true⟩ 42 ⟨[], false, 5⟩).2
        = { (⟨[], false, 5⟩ : MgrState) with now := 5 + 1 }
      ∧ (mgrAddFrame ⟨3, true, true⟩ 42 ⟨[], false, 5⟩).1.blob = 42
      ∧ (mgrAddFrame ⟨3, true, true⟩ 42 ⟨[], false, 5⟩).1.timestamp = 5
      ∧ (mgrAddFrame ⟨3, true, true⟩ 42 ⟨[], false, 5⟩).1.url
          = (if (true : Bool) then some 5 else none)
      ∧ (mgrAddFrame ⟨3, true, true⟩ 42 ⟨[], false, 5⟩).1.selected
          = (if (true : Bool) then some true else none)) :=
  ⟨rfl, addFrame_not_capturing_returns_without_buffering ⟨3, true, true⟩ 42 ⟨[], false, 5⟩ rfl⟩

/-- C9: the poller's retry predicate returns true exactly when the error
message does not say the payload is not an image and the prior failure
count is below 2 (at most 2 extra attempts); the wrapped
content-validation message is never retried, whatever the failure count;
and the retry delay is the fixed 2000 ms. -/
theorem cameraRetry_policy (n : Nat) (msg : String) :
    (cameraRetry n msg = true ↔
      jsIncludes msg "not an image" = false ∧ n < 2)
    ∧ cameraRetry n contentValidationMessage = false
    ∧ cameraRetryDelay = 2000 := by
  refine ⟨?_, ?_, rfl⟩
  · unfold cameraRetry
    by_cases h : jsIncludes msg "not an image" <;> simp [h]
  · unfold cameraRetry
    rw [show jsIncludes contentValidationMessage "not an image" = true by decide]
    rfl

/-- C10 (counterexample): `useGIFCreator.createGIF` invoked with an empty
input list throws 'No frames provided' **before** reaching
`setGifBlob(null)`, so the previously produced Encoded Result (blob `7`
here) is still exposed after this failing call — refuting "Every
createGIF() call discards the previous Encoded Result at the start of
the call". -/
theorem gcCreateGIF_empty_input_keeps_previous_result :
    (gcCreateGIF engAll (some []) gcPrev).result = .error .noFrames
    ∧ (gcCreateGIF engAll (some []) gcPrev).state.gifBlob = some 7 :=
  ⟨rfl, rfl⟩

/-- C10 (amended): every `useGIFCreator.createGIF` call whose effective
input list is non-empty discards the previous Encoded Result before
encoding begins, so after such a call fails — engine load failure or
encode error — no Encoded Result is exposed (`gifBlob` is null), while
the captured frames (both the creator's internal store and the
orchestrator's Frame Store, which `createGIF` never touches) remain
intact; a call rejected by the empty-input check, by contrast, leaves
the previous Encoded Result in place. -/
theorem gcCreateGIF_failure_clears_previous_result
    (eng : Engine) (inputBlobs : Option (List Nat)) (g : GCState)
    (o : OrchState) (h : (inputBlobs.getD g.gcFrames).isEmpty = false) :
    (∀ e, (gcCreateGIF eng inputBlobs g).result = .error e →
      (gcCreateGIF eng inputBlobs g).state.gifBlob = none)
    ∧ (gcCreateGIF eng inputBlobs g).state.gcFrames = g.gcFrames
    ∧ (orchCreateGIF eng o).state.frames = o.frames
    ∧ (orchCreateGIF eng o).state.isCapturing = o.isCapturing := by
  refine ⟨?_, ?_, ?_, ?_⟩
  · intro e he
    have key : (gcCreateGIF eng inputBlobs g).result = Except.ok ()
        ∨ (gcCreateGIF eng inputBlobs g).state.gifBlob = none := by
      unfold gcCreateGIF
      simp only [h]
      split
      · simp_all
      · split
        · right; rfl
        · split
          · right; rfl
          · left; rfl
    rcases key with hok | hnone
    · rw [he] at hok
      exact absurd hok (by simp)
    · exact hnone
  · unfold gcCreateGIF
    simp only [h]
    split
    · simp_all
    · split
      · rfl
      · split
        · rfl
        · rfl
  · unfold orchCreateGIF
    by_cases hsel : (selectedFrames o.frames).length < 2 <;> simp [hsel]
  · unfold orchCreateGIF
    by_cases hsel : (selectedFrames o.frames).length < 2 <;> simp [hsel]

theorem gcCreateGIF_failure_clears_previous_result_witness :
    ((some [1, 2] : Option (List Nat)).getD gcPrev.gcFrames).isEmpty = false
    ∧ ((∀ e, (gcCreateGIF engExecFail (some [1, 2]) gcPrev).result = .error e →
          (gcCreateGIF engExecFail (some [1, 2]) gcPrev).state.gifBlob = none)
      ∧ (gcCreateGIF engExecFail (some [1, 2]) gcPrev).state.gcFrames = gcPrev.gcFrames
      ∧ (orchCreateGIF engExecFail orchSel4).state.frames = orchSel4.frames
      ∧ (orchCreateGIF engExecFail orchSel4).state.isCapturing = orchSel4.isCapturing) :=
  ⟨by decide,
   gcCreateGIF_failure_clears_previous_result engExecFail (some [1, 2]) gcPrev
     orchSel4 (by decide)⟩

/-! ### Lemmas about the write / delete loops -/

theorem jsInsert_mem_self (files : List String) (n : String) :
    n ∈ jsInsert files n := by
  unfold jsInsert
  split
  · assumption
  · simp

theorem jsInsert_mem_of_mem (files : List String) (n m : String)
    (h : m ∈ files) : m ∈ jsInsert files n := by
  unfold jsInsert
  split
  · exact h
  · simp [h]

theorem writeFrames_mem_files (eng : Engine) :
    ∀ (bs : List Nat) (i : Nat) (files : List String) (n : String),
      n ∈ files → n ∈ (writeFrames eng bs i files).2.1
  | [], _, _, _, h => h
  | b :: rest, i, files, n, h => by
    unfold writeFrames
    split
    · exact writeFrames_mem_files eng rest (i + 1) _ n
        (jsInsert_mem_of_mem files (frameName i) n h)
    · exact h

theorem writeFrames_writes_mem (eng : Engine) :
    ∀ (bs : List Nat) (i : Nat) (files : List String) (n : String),
      n ∈ (writeFrames eng bs i files).2.2.map Prod.fst →
      n ∈ (writeFrames eng bs i files).2.1
  | [], _, _, _, h => by simp [writeFrames] at h
  | b :: rest, i, files, n, h => by
    unfold writeFrames at h ⊢
    split at h
    · next hw =>
      simp only [List.map_cons, List.mem_cons] at h
      rw [hw]
      simp only [if_true]
      rcases h with h | h
      · exact writeFrames_mem_files eng rest (i + 1) _ n
          (h ▸ jsInsert_mem_self files (frameName i))
      · exact writeFrames_writes_mem eng rest (i + 1) _ n h
    · simp at h

/-- C4 (counterexample): with the engine loaded and an empty working
space, a two-frame `createGIF` whose `exec` phase throws rejects with the
exec error but performs **no** cleanup: both input working files written
before the failure remain in the working space and not a single
`deleteFile` call is attempted — refuting "every input working file
written before the failure ... is deleted, so no working files remain
attributable to that call". -/
theorem ffCreateGIF_exec_failure_leaves_files :
    (ffCreateGIF engExecFail [5, 6] ffLoaded).result = .error .execFail
    ∧ (ffCreateGIF engExecFail [5, 6] ffLoaded).state.files
        = ["frame_0000.jpg", "frame_0001.jpg"]
    ∧ (ffCreateGIF engExecFail [5, 6] ffLoaded).trace.deletes = [] := by
  refine ⟨rfl, ?_, rfl⟩
  decide

/-- C4 (amended): when the engine throws during the write-frames, exec,
or read-back phase of `useFFmpeg.createGIF` (run with the engine loaded
on a non-empty input list), the call rejects with the engine's error and
resets progress to 0, but performs **no** cleanup: no `deleteFile` call
is attempted, and every working file written before the failure is still
present in the engine working space afterwards (cleanup runs only on the
success path, after the read-back). -/
theorem ffCreateGIF_failure_skips_cleanup
    (eng : Engine) (images : List Nat) (s : FFState)
    (hL : s.isLoaded = true) (hR : s.engineRef.isSome = true)
    (hNE : images.isEmpty = false) :
    ∀ e, (ffCreateGIF eng images s).result = .error e →
      (ffCreateGIF eng images s).trace.deletes = []
      ∧ (ffCreateGIF eng images s).state.progress = 0
      ∧ ∀ n ∈ (ffCreateGIF eng images s).trace.writes.map Prod.fst,
          n ∈ (ffCreateGIF eng images s).state.files := by
  intro e he
  have hcond : (s.engineRef.isNone || !s.isLoaded) = false := by
    rw [hL]
    cases hr : s.engineRef with
    | none => rw [hr] at hR; simp at hR
    | some _ => rfl
  have hnone : s.engineRef.isNone = false := by
    cases hr : s.engineRef with
    | none => rw [hr] at hR; simp at hR
    | some _ => rfl
  unfold ffCreateGIF at he ⊢
  rw [hcond] at he ⊢
  simp only [hNE, Bool.false_eq_true, if_false, hnone] at he ⊢
  by_cases hw : (writeFrames eng images 0 s.files).1
  all_goals simp only [hw, Bool.not_true, Bool.not_false, if_true, if_false] at he ⊢
  · by_cases hx : eng.execOk
    all_goals simp only [hx, Bool.not_true, Bool.not_false, if_true, if_false] at he ⊢
    · by_cases hrd : eng.readOk
      all_goals simp only [hrd, Bool.not_true, Bool.not_false, if_true, if_false] at he ⊢
      · exact absurd he (by simp)
      · exact ⟨by trivial, by trivial, fun n hn =>
          jsInsert_mem_of_mem _ "output.gif" n
            (writeFrames_writes_mem eng images 0 s.files n hn)⟩
    · exact ⟨by trivial, by trivial, fun n hn =>
        writeFrames_writes_mem eng images 0 s.files n hn⟩
  · exact ⟨by trivial, by trivial, fun n hn =>
      writeFrames_writes_mem eng images 0 s.files n hn⟩

theorem ffCreateGIF_failure_skips_cleanup_witness :
    ffLoaded.isLoaded = true ∧ ffLoaded.engineRef.isSome = true
    ∧ ([5, 6] : List Nat).isEmpty = false
    ∧ ((ffCreateGIF engExecFail [5, 6] ffLoaded).trace.deletes = []
      ∧ (ffCreateGIF engExecFail [5, 6] ffLoaded).state.progress = 0
      ∧ ∀ n ∈ (ffCreateGIF engExecFail [5, 6] ffLoaded).trace.writes.map Prod.fst,
          n ∈ (ffCreateGIF engExecFail [5, 6] ffLoaded).state.files) :=
  ⟨rfl, rfl, rfl,
   ffCreateGIF_failure_skips_cleanup engExecFail [5, 6] ffLoaded rfl rfl rfl
     .execFail rfl⟩

theorem loadFFmpeg_progress (ok : Bool) (s : FFState) (h : s.progress = 0) :
    (loadFFmpeg ok s).2.progress = 0 := by
  unfold loadFFmpeg
  split
  · exact h
  · split <;> rfl

/-- C6: every `useFFmpeg.createGIF` call leaves the progress state at 0
when it completes — whether it resolves with a GIF or rejects at any
stage (load failure, empty input, null engine, write/exec/read failure) —
given that progress read 0 before the call (which every completed call in
turn guarantees, so consecutive calls always start from a clean display
state); moreover on the encoding path (engine loaded, non-empty input)
the very first value assigned to progress during the call is 0. -/
theorem ffCreateGIF_progress_reset
    (eng : Engine) (images : List Nat) (s : FFState) (h : s.progress = 0) :
    (ffCreateGIF eng images s).state.progress = 0
    ∧ (s.isLoaded = true → s.engineRef.isSome = true → images.isEmpty = false →
        (ffCreateGIF eng images s).trace.progressSets.head? = some 0) := by
  unfold ffCreateGIF
  by_cases hcond : (s.engineRef.isNone || !s.isLoaded) = true
  · rw [if_pos hcond]
    rcases hres : loadFFmpeg eng.loadOk s with ⟨r0, s0⟩
    have hs0 : s0.progress = 0 := by
      have hp := loadFFmpeg_progress eng.loadOk s h
      rw [hres] at hp
      exact hp
    have hvac : s.isLoaded = true → s.engineRef.isSome = true → False := by
      intro hL hR
      have hnone : s.engineRef.isNone = false := by
        cases hr : s.engineRef with
        | none => rw [hr] at hR; simp at hR
        | some _ => rfl
      rw [hnone, hL] at hcond
      simp at hcond
    refine ⟨?_, fun hL hR _ => absurd (hvac hL hR) (by simp)⟩
    cases r0 with
    | error e => exact hs0
    | ok _ =>
      dsimp only
      split
      · exact hs0
      · split
        · exact hs0
        · split
          · rfl
          · split
            · rfl
            · split
              · rfl
              · rfl
  · rw [if_neg hcond]
    dsimp only
    constructor
    · split
      · exact h
      · split
        · exact h
        · split
          · rfl
          · split
            · rfl
            · split
              · rfl
              · rfl
    · intro _ _ hNE
      simp only [hNE, Bool.false_eq_true, if_false]
      have hnone : s.engineRef.isNone = false := by
        revert hcond
        cases s.engineRef <;> simp
      simp only [hnone, Bool.false_eq_true, if_false]
      split
      · rfl
      · split
        · rfl
        · split
          · rfl
          · rfl

theorem ffCreateGIF_progress_reset_witness :
    ffLoaded.progress = 0
    ∧ ((ffCreateGIF engAll [5, 6] ffLoaded).state.progress = 0
      ∧ (ffLoaded.isLoaded = true → ffLoaded.engineRef.isSome = true →
          ([5, 6] : List Nat).isEmpty = false →
          (ffCreateGIF engAll [5, 6] ffLoaded).trace.progressSets.head? = some 0)) :=
  ⟨rfl, ffCreateGIF_progress_reset engAll [5, 6] ffLoaded rfl⟩

/-! ### Lemmas tracking the bytes handed to the engine -/

theorem writeFrames_all_ok (eng : Engine) (hW : ∀ i, eng.writeOk i = true) :
    ∀ (bs : List Nat) (i : Nat) (files : List String),
      (writeFrames eng bs i files).1 = true
      ∧ (writeFrames eng bs i files).2.2.map Prod.snd = bs
  | [], _, _ => ⟨rfl, rfl⟩
  | b :: rest, i, files => by
    unfold writeFrames
    rw [hW i]
    simp only [if_true]
    have ih := writeFrames_all_ok eng hW rest (i + 1) (jsInsert files (frameName i))
    exact ⟨ih.1, by simp [ih.2]⟩

theorem ffCreateGIF_writes (eng : Engine) (images : List Nat) (s : FFState)
    (hL : s.isLoaded = true) (hR : s.engineRef.isSome = true)
    (hW : ∀ i, eng.writeOk i = true) :
    (ffCreateGIF eng images s).trace.writes.map Prod.snd = images := by
  have hnone : s.engineRef.isNone = false := by
    cases hr : s.engineRef with
    | none => rw [hr] at hR; simp at hR
    | some _ => rfl
  have hcond : (s.engineRef.isNone || !s.isLoaded) = false := by
    rw [hnone, hL]
    rfl
  unfold ffCreateGIF
  simp only [hcond, Bool.false_eq_true, if_false]
  by_cases hE : images.isEmpty = true
  · simp only [hE, if_true]
    rw [List.isEmpty_iff.mp hE]
    rfl
  · simp only [hE, Bool.false_eq_true, if_false, hnone]
    have hw := writeFrames_all_ok eng hW images 0 s.files
    rw [hw.1]
    simp only [Bool.not_true, Bool.false_eq_true, if_false]
    split
    · exact hw.2
    · split
      · exact hw.2
      · exact hw.2

theorem gcCreateGIF_writes (eng : Engine) (blobs : List Nat) (g : GCState)
    (hNE : blobs.isEmpty = false) (hW : ∀ i, eng.writeOk i = true)
    (hLoadOk : eng.loadOk = true) (hNL : g.ff.isLoading = false)
    (hRef : g.ff.isLoaded = true → g.ff.engineRef.isSome = true) :
    (gcCreateGIF eng (some blobs) g).trace.writes.map Prod.snd = blobs := by
  unfold gcCreateGIF
  simp only [Option.getD_some, hNE, Bool.false_eq_true, if_false]
  by_cases hld : g.ff.isLoaded = true
  · simp only [hld, Bool.not_true, Bool.false_eq_true, if_false]
    split
    · exact ffCreateGIF_writes eng blobs g.ff hld (hRef hld) hW
    · exact ffCreateGIF_writes eng blobs g.ff hld (hRef hld) hW
  · have hld2 : g.ff.isLoaded = false := by
      revert hld
      cases g.ff.isLoaded <;> simp
    simp only [hld2, Bool.not_false, if_true, loadFFmpeg, hNL, Bool.or_false,
      Bool.false_eq_true, if_false, hLoadOk, if_true]
    split
    · exact ffCreateGIF_writes eng blobs _ rfl rfl hW
    · exact ffCreateGIF_writes eng blobs _ rfl rfl hW

/-- C2: for every frame store, a `createGIF()` run whose engine accepts
the frame writes hands the encoder exactly the image buffers of the
frames whose `selected` flag is not `false`, in store (capture) order:
the bytes of the `writeFile` calls equal the blob list of the filtered
store, which is itself a sublist (order-preserving, duplication-free
selection) of the full store's blob sequence. -/
theorem orchCreateGIF_encodes_selected_in_order
    (eng : Engine) (s : OrchState)
    (hW : ∀ i, eng.writeOk i = true) (hLoadOk : eng.loadOk = true)
    (hNL : s.gc.ff.isLoading = false)
    (hRef : s.gc.ff.isLoaded = true → s.gc.ff.engineRef.isSome = true)
    (hSel : 2 ≤ (selectedFrames s.frames).length) :
    (orchCreateGIF eng s).trace.writes.map Prod.snd
      = (selectedFrames s.frames).map Frame.blob
    ∧ ((selectedFrames s.frames).map Frame.blob).Sublist
        (s.frames.map Frame.blob) := by
  constructor
  · unfold orchCreateGIF
    rw [if_neg (by omega)]
    show (gcCreateGIF eng (some ((selectedFrames s.frames).map Frame.blob))
        s.gc).trace.writes.map Prod.snd = _
    refine gcCreateGIF_writes eng _ s.gc ?_ hW hLoadOk hNL hRef
    have : ((selectedFrames s.frames).map Frame.blob).length
        = (selectedFrames s.frames).length := List.length_map _ _
    cases hmt : ((selectedFrames s.frames).map Frame.blob) with
    | nil => rw [hmt] at this; simp at this; omega
    | cons a l => rfl
  · exact (List.filter_sublist s.frames).map Frame.blob

theorem orchCreateGIF_encodes_selected_in_order_witness :
    2 ≤ (selectedFrames orchSel4.frames).length
    ∧ ((orchCreateGIF engAll orchSel4).trace.writes.map Prod.snd
        = (selectedFrames orchSel4.frames).map Frame.blob
      ∧ ((selectedFrames orchSel4.frames).map Frame.blob).Sublist
          (orchSel4.frames.map Frame.blob)) :=
  ⟨by decide,
   orchCreateGIF_encodes_selected_in_order engAll orchSel4
     (fun _ => rfl) rfl rfl (fun _ => rfl) (by decide)⟩

/-! ### Characterizing repeated `addFrame` calls -/

/-- The frames that consecutive capturing `addFrame` calls on blobs `bs`
construct, starting at clock value `t`. -/
def buildFrames (cfg : MgrCfg) : List Nat → Nat → List Frame
  | [], _ => []
  | b :: rest, t => mkFrame cfg b t :: buildFrames cfg rest (t + 1)

theorem buildFrames_map_blob (cfg : MgrCfg) :
    ∀ (bs : List Nat) (t : Nat), (buildFrames cfg bs t).map Frame.blob = bs
  | [], _ => rfl
  | b :: rest, t => by
    unfold buildFrames
    simp [buildFrames_map_blob cfg rest (t + 1), mkFrame]

theorem mgrAddFrames_nil (cfg : MgrCfg) (s : MgrState) :
    mgrAddFrames cfg [] s = s := rfl

theorem mgrAddFrames_cons (cfg : MgrCfg) (b : Nat) (rest : List Nat)
    (s : MgrState) :
    mgrAddFrames cfg (b :: rest) s
      = mgrAddFrames cfg rest (mgrAddFrame cfg b s).2 := rfl

theorem mgrAddFrame_capturing (cfg : MgrCfg) (b : Nat) (s : MgrState)
    (hcap : s.isCapturing = true) (hlt : s.frames.length < cfg.maxFrames) :
    (mgrAddFrame cfg b s).2
      = ⟨s.frames ++ [mkFrame cfg b s.now],
         if s.frames.length + 1 ≥ cfg.maxFrames then false else s.isCapturing,
         s.now + 1⟩ := by
  unfold mgrAddFrame
  rw [hcap]
  simp only [Bool.not_true, Bool.false_eq_true, if_false, List.length_append,
    List.length_cons, List.length_nil, Nat.add_zero]
  rw [if_neg (by omega)]

theorem mgrAddFrame_idle (cfg : MgrCfg) (b : Nat) (s : MgrState)
    (hcap : s.isCapturing = false) :
    (mgrAddFrame cfg b s).2 = ⟨s.frames, s.isCapturing, s.now + 1⟩ := by
  unfold mgrAddFrame
  rw [hcap]
  simp

theorem mgrAddFrames_spec (cfg : MgrCfg) :
    ∀ (bs : List Nat) (s : MgrState),
      s.frames.length ≤ cfg.maxFrames →
      (s.isCapturing = true ↔ s.frames.length < cfg.maxFrames) →
      (mgrAddFrames cfg bs s).frames
          = s.frames
            ++ buildFrames cfg (bs.take (cfg.maxFrames - s.frames.length)) s.now
      ∧ ((mgrAddFrames cfg bs s).isCapturing = true ↔
          s.frames.length + bs.length < cfg.maxFrames)
      ∧ (mgrAddFrames cfg bs s).now = s.now + bs.length := by
  intro bs
  induction bs with
  | nil =>
    intro s h1 h2
    refine ⟨by simp [mgrAddFrames_nil, buildFrames], ?_, by simp [mgrAddFrames_nil]⟩
    rw [mgrAddFrames_nil]
    simpa using h2
  | cons b rest ih =>
    intro s h1 h2
    by_cases hlt : s.frames.length < cfg.maxFrames
    · have hcap : s.isCapturing = true := h2.mpr hlt
      rw [mgrAddFrames_cons, mgrAddFrame_capturing cfg b s hcap hlt]
      have h1' : (s.frames ++ [mkFrame cfg b s.now]).length ≤ cfg.maxFrames := by
        simp only [List.length_append, List.length_cons, List.length_nil]
        omega
      have h2' :
          ((if s.frames.length + 1 ≥ cfg.maxFrames then false
            else s.isCapturing) = true
          ↔ (s.frames ++ [mkFrame cfg b s.now]).length < cfg.maxFrames) := by
        simp only [List.length_append, List.length_cons, List.length_nil]
        by_cases hge : s.frames.length + 1 ≥ cfg.maxFrames
        · rw [if_pos hge]
          constructor
          · intro hf
            exact absurd hf (by simp)
          · intro hf
            omega
        · rw [if_neg hge, hcap]
          constructor
          · intro _
            omega
          · intro _
            rfl
      obtain ⟨ihf, ihc, ihn⟩ := ih ⟨s.frames ++ [mkFrame cfg b s.now],
        if s.frames.length + 1 ≥ cfg.maxFrames then false else s.isCapturing,
        s.now + 1⟩ h1' h2'
      refine ⟨?_, ?_, ?_⟩
      · rw [ihf]
        have harith : cfg.maxFrames - s.frames.length
            = (cfg.maxFrames - (s.frames.length + 1)) + 1 := by omega
        rw [harith, List.take_succ_cons]
        simp only [List.length_append, List.length_cons, List.length_nil,
          Nat.add_zero, buildFrames, List.append_assoc, List.cons_append,
          List.nil_append]
      · rw [ihc]
        simp only [List.length_append, List.length_cons, List.length_nil]
        omega
      · rw [ihn]
        simp only [List.length_cons]
        omega
    · have hcap : s.isCapturing = false := by
        cases hc : s.isCapturing with
        | false => rfl
        | true => exact absurd (h2.mp hc) hlt
      rw [mgrAddFrames_cons, mgrAddFrame_idle cfg b s hcap]
      obtain ⟨ihf, ihc, ihn⟩ := ih ⟨s.frames, s.isCapturing, s.now + 1⟩ h1
        (by dsimp only
            rw [hcap]
            exact ⟨fun hf => absurd hf (by simp), fun hf => absurd hf hlt⟩)
      dsimp only at ihf ihc ihn
      refine ⟨?_, ?_, ?_⟩
      · rw [ihf]
        have h0 : cfg.maxFrames - s.frames.length = 0 := by omega
        rw [h0]
        simp [buildFrames]
      · rw [ihc]
        simp only [List.length_cons]
        omega
      · rw [ihn]
        simp only [List.length_cons]
        omega

/-- C3: starting from an empty frame store that is capturing, with
`maxFrames = M ≥ 1`: the stored blobs after any series of `addFrame`
calls are exactly the first `M` blobs delivered (so after `M` calls the
store holds exactly `M` frames), the store length is the minimum of the
number of calls and `M` (never exceeding `M` at any prefix of the call
sequence), the capturing flag reads true afterwards exactly while fewer
than `M` calls have happened — so it is flipped to false synchronously
within the `M`-th call itself — and calls beyond the `M`-th leave the
stored sequence unchanged. -/
theorem addFrame_cap_auto_stop (cfg : MgrCfg) (bs : List Nat) (k : Nat)
    (hM : 1 ≤ cfg.maxFrames) :
    (mgrAddFrames cfg bs ⟨[], true, 0⟩).frames.map Frame.blob
        = bs.take cfg.maxFrames
    ∧ (mgrAddFrames cfg bs ⟨[], true, 0⟩).frames.length
        = min bs.length cfg.maxFrames
    ∧ ((mgrAddFrames cfg bs ⟨[], true, 0⟩).isCapturing = true
        ↔ bs.length < cfg.maxFrames)
    ∧ (mgrAddFrames cfg (bs.take k) ⟨[], true, 0⟩).frames.length ≤ cfg.maxFrames
    ∧ (mgrAddFrames cfg bs ⟨[], true, 0⟩).frames
        = (mgrAddFrames cfg (bs.take cfg.maxFrames) ⟨[], true, 0⟩).frames := by
  have hbase : ∀ cs : List Nat,
      (mgrAddFrames cfg cs ⟨[], true, 0⟩).frames
          = buildFrames cfg (cs.take cfg.maxFrames) 0
      ∧ ((mgrAddFrames cfg cs ⟨[], true, 0⟩).isCapturing = true
          ↔ cs.length < cfg.maxFrames) := by
    intro cs
    obtain ⟨hf, hc, _⟩ := mgrAddFrames_spec cfg cs ⟨[], true, 0⟩
      (by simp) (by dsimp only; exact ⟨fun _ => hM, fun _ => rfl⟩)
    refine ⟨?_, by simpa using hc⟩
    simpa using hf
  have hlen : ∀ cs : List Nat,
      (mgrAddFrames cfg cs ⟨[], true, 0⟩).frames.length
        = min cs.length cfg.maxFrames := by
    intro cs
    rw [(hbase cs).1]
    have : (buildFrames cfg (cs.take cfg.maxFrames) 0).map Frame.blob
        = cs.take cfg.maxFrames := buildFrames_map_blob cfg _ 0
    have hl := congrArg List.length this
    rw [List.length_map] at hl
    rw [hl, List.length_take, Nat.min_comm]
  refine ⟨?_, hlen bs, (hbase bs).2, ?_, ?_⟩
  · rw [(hbase bs).1]
    exact buildFrames_map_blob cfg _ 0
  · rw [hlen (bs.take k)]
    exact Nat.min_le_right _ _
  · rw [(hbase bs).1, (hbase (bs.take cfg.maxFrames)).1, List.take_take,
      Nat.min_self]

theorem addFrame_cap_auto_stop_witness :
    1 ≤ (3 : Nat)
    ∧ ((mgrAddFrames ⟨3, true, true⟩ [10, 11, 12, 13, 14] ⟨[], true, 0⟩).frames.map
          Frame.blob = [10, 11, 12, 13, 14].take 3
      ∧ (mgrAddFrames ⟨3, true, true⟩ [10, 11, 12, 13, 14] ⟨[], true, 0⟩).frames.length
          = min 5 3
      ∧ ((mgrAddFrames ⟨3, true, true⟩ [10, 11, 12, 13, 14] ⟨[], true, 0⟩).isCapturing
            = true ↔ (5 : Nat) < 3)
      ∧ (mgrAddFrames ⟨3, true, true⟩ ([10, 11, 12, 13, 14].take 4)
            ⟨[], true, 0⟩).frames.length ≤ 3
      ∧ (mgrAddFrames ⟨3, true, true⟩ [10, 11, 12, 13, 14] ⟨[], true, 0⟩).frames
          = (mgrAddFrames ⟨3, true, true⟩ ([10, 11, 12, 13, 14].take 3)
              ⟨[], true, 0⟩).frames) :=
  ⟨by decide, addFrame_cap_auto_stop ⟨3, true, true⟩ [10, 11, 12, 13, 14] 4 (by decide)⟩

/-! ### Order preservation under arbitrary Frame Store operations -/

/-- The identity of a frame apart from its selection flag: blob,
timestamp, preview URL. -/
def frameCore (f : Frame) : Nat × Nat × Option Nat := (f.blob, f.timestamp, f.url)

theorem toggleAt_core : ∀ (i : Nat) (l : List Frame),
    (toggleAt i l).map frameCore = l.map frameCore
  | i, [] => by cases i <;> rfl
  | 0, f :: rest => by
    unfold toggleAt
    cases hs : f.selected <;> simp [frameCore]
  | i + 1, f :: rest => by
    unfold toggleAt
    simp [toggleAt_core i rest]

theorem toggleAt_timestamp : ∀ (i : Nat) (l : List Frame),
    (toggleAt i l).map Frame.timestamp = l.map Frame.timestamp
  | i, [] => by cases i <;> rfl
  | 0, f :: rest => by
    unfold toggleAt
    cases hs : f.selected <;> simp
  | i + 1, f :: rest => by
    unfold toggleAt
    simp [toggleAt_timestamp i rest]

theorem toggleAt_length (i : Nat) (l : List Frame) :
    (toggleAt i l).length = l.length := by
  have h := congrArg List.length (toggleAt_timestamp i l)
  simpa using h

theorem mgrAddFrame_fst (cfg : MgrCfg) (b : Nat) (s : MgrState) :
    (mgrAddFrame cfg b s).1 = mkFrame cfg b s.now := by
  unfold mgrAddFrame
  split <;> rfl

/-- Invariant of every reachable `useFrameManager` state: the stored
timestamps strictly increase along the sequence (capture order), every
stored timestamp is below the clock, and while capturing the store is
strictly under the cap. -/
def MgrInv (M : Nat) (s : MgrState) : Prop :=
  List.Chain' (· < ·) (s.frames.map Frame.timestamp)
  ∧ (∀ f ∈ s.frames, f.timestamp < s.now)
  ∧ (s.isCapturing = true → s.frames.length < M)

theorem mem_of_getLastOpt {α : Type} (l : List α) (x : α)
    (hx : x ∈ l.getLast?) : x ∈ l := by
  obtain ⟨h, hxl⟩ := List.mem_getLast?_eq_getLast hx
  rw [hxl]
  exact List.getLast_mem h

theorem mgrInv_init (M : Nat) : MgrInv M mgrInit :=
  ⟨by simp [mgrInit], by simp [mgrInit], by intro h; simp [mgrInit] at h⟩

theorem mgrInv_step (cfg : MgrCfg) (hM : 1 ≤ cfg.maxFrames) (op : MgrOp)
    (s : MgrState) (h : MgrInv cfg.maxFrames s) :
    MgrInv cfg.maxFrames (mgrStep cfg op s) := by
  obtain ⟨hchain, hts, hcap⟩ := h
  cases op with
  | addFrame b =>
    show MgrInv _ (mgrAddFrame cfg b s).2
    cases hc : s.isCapturing with
    | false =>
      rw [mgrAddFrame_idle cfg b s hc]
      exact ⟨hchain, fun f hf => Nat.lt_succ_of_lt (hts f hf), hcap⟩
    | true =>
      have hlt : s.frames.length < cfg.maxFrames := hcap hc
      rw [mgrAddFrame_capturing cfg b s hc hlt]
      refine ⟨?_, ?_, ?_⟩
      · show List.Chain' (· < ·)
          ((s.frames ++ [mkFrame cfg b s.now]).map Frame.timestamp)
        rw [List.map_append]
        refine List.Chain'.append hchain (by simp) ?_
        intro x hx y hy
        simp only [List.map_cons, List.map_nil, List.head?_cons,
          Option.mem_def, Option.some.injEq] at hy
        have hx' : x ∈ s.frames.map Frame.timestamp := mem_of_getLastOpt _ x hx
        obtain ⟨g, hg, hgx⟩ := List.mem_map.mp hx'
        rw [← hy, ← hgx]
        show g.timestamp < (mkFrame cfg b s.now).timestamp
        have : (mkFrame cfg b s.now).timestamp = s.now := by
          unfold mkFrame
          rfl
        rw [this]
        exact hts g hg
      · intro f hf
        rcases List.mem_append.mp hf with h' | h'
        · exact Nat.lt_succ_of_lt (hts f h')
        · simp only [List.mem_singleton] at h'
          rw [h']
          show (mkFrame cfg b s.now).timestamp < s.now + 1
          unfold mkFrame
          exact Nat.lt_succ_self s.now
      · intro h'
        by_cases hge : s.frames.length + 1 ≥ cfg.maxFrames
        · rw [if_pos hge] at h'
          exact absurd h' (by simp)
        · show (s.frames ++ [mkFrame cfg b s.now]).length < cfg.maxFrames
          simp only [List.length_append, List.length_cons, List.length_nil]
          omega
  | toggle i =>
    refine ⟨?_, ?_, ?_⟩
    · show List.Chain' (· < ·) ((toggleAt i s.frames).map Frame.timestamp)
      rw [toggleAt_timestamp]
      exact hchain
    · intro f hf
      have hmem : f.timestamp ∈ (toggleAt i s.frames).map Frame.timestamp :=
        List.mem_map_of_mem Frame.timestamp hf
      rw [toggleAt_timestamp] at hmem
      obtain ⟨g, hg, hgf⟩ := List.mem_map.mp hmem
      rw [← hgf]
      exact hts g hg
    · intro h'
      show (toggleAt i s.frames).length < cfg.maxFrames
      rw [toggleAt_length]
      exact hcap h'
  | stopCapture =>
    have h0 : mgrStep cfg .stopCapture s = ⟨s.frames, false, s.now⟩ := rfl
    rw [h0]
    exact ⟨hchain, hts, fun h' => absurd h' (by simp)⟩
  | clearFrames =>
    have h0 : mgrStep cfg .clearFrames s = ⟨[], false, s.now⟩ := rfl
    rw [h0]
    exact ⟨by simp, by simp, fun h' => absurd h' (by simp)⟩
  | startCapture =>
    have h0 : mgrStep cfg .startCapture s = ⟨[], true, s.now⟩ := rfl
    rw [h0]
    exact ⟨by simp, by simp, fun _ => hM⟩

theorem mgrInv_run (cfg : MgrCfg) (hM : 1 ≤ cfg.maxFrames) :
    ∀ (ops : List MgrOp) (s : MgrState), MgrInv cfg.maxFrames s →
      MgrInv cfg.maxFrames (mgrRun cfg ops s)
  | [], _, h => h
  | op :: rest, s, h =>
    mgrInv_run cfg hM rest (mgrStep cfg op s) (mgrInv_step cfg hM op s h)

/-- C5: after any sequence of Frame Store operations (capturing
`addFrame`, `toggleFrameSelection`, `stopCapture`, `clearFrames`,
`startCapture`) from the initial state, the stored sequence is in
strictly increasing timestamp order — the chronological order of the
`addFrame` calls that produced it; a further `addFrame` call either
leaves the sequence unchanged or appends exactly the returned frame at
the end (never reordering or dropping existing frames); and
`toggleFrameSelection` preserves every frame's position, blob, timestamp
and URL, changing at most one `selected` flag. -/
theorem frame_store_order_preserved (cfg : MgrCfg) (ops : List MgrOp)
    (b i : Nat) (hM : 1 ≤ cfg.maxFrames) :
    List.Chain' (· < ·)
        ((mgrRun cfg ops mgrInit).frames.map Frame.timestamp)
    ∧ ((mgrAddFrame cfg b (mgrRun cfg ops mgrInit)).2.frames
          = (mgrRun cfg ops mgrInit).frames
      ∨ (mgrAddFrame cfg b (mgrRun cfg ops mgrInit)).2.frames
          = (mgrRun cfg ops mgrInit).frames
            ++ [(mgrAddFrame cfg b (mgrRun cfg ops mgrInit)).1])
    ∧ (toggleAt i (mgrRun cfg ops mgrInit).frames).map frameCore
        = (mgrRun cfg ops mgrInit).frames.map frameCore := by
  have hinv := mgrInv_run cfg hM ops mgrInit (mgrInv_init cfg.maxFrames)
  refine ⟨hinv.1, ?_, toggleAt_core i _⟩
  cases hc : (mgrRun cfg ops mgrInit).isCapturing with
  | false =>
    left
    rw [mgrAddFrame_idle cfg b _ hc]
  | true =>
    right
    have hlt := hinv.2.2 hc
    rw [mgrAddFrame_capturing cfg b _ hc hlt, mgrAddFrame_fst]

theorem frame_store_order_preserved_witness :
    1 ≤ (3 : Nat)
    ∧ (List.Chain' (· < ·)
          ((mgrRun ⟨3, true, true⟩
              [.startCapture, .addFrame 10, .addFrame 11, .toggle 0,
               .addFrame 12, .addFrame 13] mgrInit).frames.map Frame.timestamp)
      ∧ ((mgrAddFrame ⟨3, true, true⟩ 42 (mgrRun ⟨3, true, true⟩
              [.startCapture, .addFrame 10, .addFrame 11, .toggle 0,
               .addFrame 12, .addFrame 13] mgrInit)).2.frames
            = (mgrRun ⟨3, true, true⟩
                [.startCapture, .addFrame 10, .addFrame 11, .toggle 0,
                 .addFrame 12, .addFrame 13] mgrInit).frames
        ∨ (mgrAddFrame ⟨3, true, true⟩ 42 (mgrRun ⟨3, true, true⟩
              [.startCapture, .addFrame 10, .addFrame 11, .toggle 0,
               .addFrame 12, .addFrame 13] mgrInit)).2.frames
            = (mgrRun ⟨3, true, true⟩
                [.startCapture, .addFrame 10, .addFrame 11, .toggle 0,
                 .addFrame 12, .addFrame 13] mgrInit).frames
              ++ [(mgrAddFrame ⟨3, true, true⟩ 42 (mgrRun ⟨3, true, true⟩
                    [.startCapture, .addFrame 10, .addFrame 11, .toggle 0,
                     .addFrame 12, .addFrame 13] mgrInit)).1])
      ∧ (toggleAt 1 (mgrRun ⟨3, true, true⟩
              [.startCapture, .addFrame 10, .addFrame 11, .toggle 0,
               .addFrame 12, .addFrame 13] mgrInit).frames).map frameCore
          = (mgrRun ⟨3, true, true⟩
              [.startCapture, .addFrame 10, .addFrame 11, .toggle 0,
               .addFrame 12, .addFrame 13] mgrInit).frames.map frameCore) :=
  ⟨by decide,
   frame_store_order_preserved ⟨3, true, true⟩
     [.startCapture, .addFrame 10, .addFrame 11, .toggle 0,
      .addFrame 12, .addFrame 13] 42 1 (by decide)⟩

end CityGifs
